import Mathlib

/-!
Verification model of the NodeVault record manager.

The source is a Node.js CLI over a MongoDB collection:
  - `src/db/index.js`      — record store (connection, counter, CRUD, backup, normalization)
  - `src/index.js`         — interactive menu (search, sort, export, stats)
  - `src/events/logger.js` — activity logger attached to the db event emitter

This file shallowly embeds the record store and the helpers the claims are
about.  Machine integers are modeled as `Nat`/`Int`; timestamps produced by
`new Date()` are modeled as abstract ticks (`Nat`, milliseconds since epoch)
rendered through a faithful model of `Date.prototype.toISOString`; fallible
operations return `Except`/`Option`.
-/

namespace NodeVault

/-! ## String helpers (JS semantics) -/

/-- `listStartsWith needle hay` is true when `needle` is an initial segment of `hay`. -/
def listStartsWith : List Char → List Char → Bool
  | [], _ => true
  | _ :: _, [] => false
  | a :: as, b :: bs => a == b && listStartsWith as bs

/-- Model of JS `hay.includes(needle)`: `needle` occurs contiguously in `hay`. -/
def strIncludes (hay needle : String) : Bool :=
  (List.range (hay.toList.length + 1)).any fun i =>
    listStartsWith needle.toList (hay.toList.drop i)

/-- Model of the regex test `/^\d+$/.test(s)`: one or more ASCII digits, nothing else. -/
def isDigitString (s : String) : Bool :=
  s.length != 0 && s.toList.all (fun c => c.isDigit)

/-- Model of `checkForHexRegExp` used by the bson `ObjectId` constructor:
24 hexadecimal characters (case-insensitive). -/
def isHex24 (s : String) : Bool :=
  s.length == 24 && s.toList.all fun c =>
    c.isDigit || ('a' ≤ c && c ≤ 'f') || ('A' ≤ c && c ≤ 'F')

/-- Numeric value of an ASCII digit character. -/
def digitVal (c : Char) : Nat := c.toNat - '0'.toNat

/-- Model of `parseInt(s, 10)` restricted to all-digit strings (the only
place the source applies it after testing `/^\d+$/`). -/
def parseIntDigits (s : String) : Nat :=
  s.toList.foldl (fun acc c => acc * 10 + digitVal c) 0

/-- Model of JS `String.prototype.trim` (this code base only meets ASCII
whitespace). -/
def jsTrim (s : String) : String :=
  String.mk (((s.toList.dropWhile Char.isWhitespace).reverse.dropWhile
    Char.isWhitespace).reverse)

/-- Model of JS `String.prototype.toLowerCase` (ASCII case mapping, which is
all this code base meets). -/
def strToLower (s : String) : String :=
  String.mk (s.toList.map Char.toLower)

/-! ## ISO timestamp model

`new Date().toISOString()` yields `YYYY-MM-DDTHH:MM:SS.mmmZ`.  We model the
clock as a tick `t : Nat` (milliseconds since the Unix epoch) and render it
with the standard civil-from-days calendar computation. -/

def pad2 (n : Nat) : String :=
  if n < 10 then "0" ++ toString n else toString n

def pad3 (n : Nat) : String :=
  if n < 10 then "00" ++ toString n
  else if n < 100 then "0" ++ toString n
  else toString n

def pad4 (n : Nat) : String :=
  if n < 10 then "000" ++ toString n
  else if n < 100 then "00" ++ toString n
  else if n < 1000 then "0" ++ toString n
  else toString n

/-- Civil date (year, month, day) of a day count since 1970-01-01
(Howard Hinnant's `civil_from_days`, valid for non-negative day counts). -/
def civilFromDays (days : Nat) : Nat × Nat × Nat :=
  let z := days + 719468
  let era := z / 146097
  let doe := z % 146097
  let yoe := (doe - doe / 1460 + doe / 36524 - doe / 146096) / 365
  let y := yoe + era * 400
  let doy := doe - (365 * yoe + yoe / 4 - yoe / 100)
  let mp := (5 * doy + 2) / 153
  let d := doy - (153 * mp + 2) / 5 + 1
  let m := if mp < 10 then mp + 3 else mp - 9
  if m ≤ 2 then (y + 1, m, d) else (y, m, d)

/-- Model of `Date.prototype.toISOString` on a tick (milliseconds since epoch),
for dates below year 10000 (the only range this program ever produces). -/
def isoOf (t : Nat) : String :=
  let ms := t % 1000
  let s := t / 1000 % 60
  let mi := t / 60000 % 60
  let h := t / 3600000 % 24
  let ymd := civilFromDays (t / 86400000)
  pad4 ymd.1 ++ "-" ++ pad2 ymd.2.1 ++ "-" ++ pad2 ymd.2.2 ++ "T" ++
    pad2 h ++ ":" ++ pad2 mi ++ ":" ++ pad2 s ++ "." ++ pad3 ms ++ "Z"

/-- Model of `iso.replace('T',' ').split('.')[0]` — the seconds-precision
rendering `toPublic` produces for `updated`.  On the canonical ISO shape the
single `'T'` sits before the single `'.'`, so replacing every `'T'` in the
retained prefix coincides with JS's replace-first semantics. -/
def secondsPrecision (s : String) : String :=
  String.mk (((s.toList.map fun c => if c == 'T' then ' ' else c).takeWhile
    fun c => c != '.'))

/-- Leap-year rule of the proleptic Gregorian calendar, as used by JS
`Date`. -/
def isLeapYear (y : Nat) : Bool :=
  (y % 4 == 0 && y % 100 != 0) || y % 400 == 0

/-- Number of days in month `m` (1..12) of year `y`, Gregorian. -/
def daysInMonth (y m : Nat) : Nat :=
  if m == 2 then (if isLeapYear y then 29 else 28)
  else if m == 4 || m == 6 || m == 9 || m == 11 then 30
  else 31

/-- Recognizer for the canonical ISO timestamp shape `YYYY-MM-DDTHH:MM:SS.mmmZ`
this program writes.  Models the strings on which `new Date(s)` round-trips:
`new Date(s).toISOString() = s`; on strings rejected here the code path
`new Date(s).toISOString()` is treated as throwing `RangeError`, as JS does on
an unparseable string such as `"not-a-date"` and on format strings with
illegal element values (ECMA-262 `Date.parse` yields `NaN` on those): month
must be 1..12, day-of-month 1..`daysInMonth` of that month with Gregorian
leap years, hour below 24, minute and second below 60. -/
def isCanonIso (s : String) : Bool :=
  let cs := s.toList
  let dig := fun (i : Nat) => (cs.getD i 'x').isDigit
  let sep := fun (i : Nat) (c : Char) => cs.getD i 'x' == c
  let n2 := fun (i : Nat) => 10 * digitVal (cs.getD i 'x') + digitVal (cs.getD (i + 1) 'x')
  let year := 1000 * digitVal (cs.getD 0 'x') + 100 * digitVal (cs.getD 1 'x') +
    10 * digitVal (cs.getD 2 'x') + digitVal (cs.getD 3 'x')
  cs.length == 24 &&
  dig 0 && dig 1 && dig 2 && dig 3 && sep 4 '-' &&
  dig 5 && dig 6 && sep 7 '-' && dig 8 && dig 9 && sep 10 'T' &&
  dig 11 && dig 12 && sep 13 ':' && dig 14 && dig 15 && sep 16 ':' &&
  dig 17 && dig 18 && sep 19 '.' && dig 20 && dig 21 && dig 22 && sep 23 'Z' &&
  decide (1 ≤ n2 5) && decide (n2 5 ≤ 12) &&
  decide (1 ≤ n2 8) && decide (n2 8 ≤ daysInMonth year (n2 5)) &&
  decide (n2 11 < 24) && decide (n2 14 < 60) && decide (n2 17 < 60)

/-- Model of the backup filename stamp
`now.toISOString().replace(/[:]/g,'-').replace(/\..+/, '')`. -/
def stampOf (t : Nat) : String :=
  String.mk (((isoOf t).toList.map fun c => if c == ':' then '-' else c).takeWhile
    fun c => c != '.')

/-- Backup filename `backup_<stamp>.json`. -/
def backupFileName (t : Nat) : String :=
  "backup_" ++ stampOf t ++ ".json"

/-! ## Data model

A stored document of the `records` collection.  Mongo's `_id` is modeled as
its canonical 24-hex lowercase string form (`oid`); `userID`, `name`,
`value`, `createdAt`, `updatedAt` mirror what `addRecord`/`updateRecord`
write.  Timestamps are ticks (see `isoOf`). -/
structure Doc where
  oid : String
  userID : Nat
  name : String
  value : String
  createdAt : Nat
  updatedAt : Option Nat
deriving Repr, DecidableEq

/-- Canonical hex string of the n-th driver-generated ObjectId: lowercase
24-hex.  Only distinctness of successive ids matters to the model. -/
def oidString (n : Nat) : String :=
  let h := Nat.toDigits 16 n
  String.mk (List.replicate (24 - h.length) '0') ++ String.mk h

/-- JS truthiness `x || null` on a number: `0` is falsy. -/
def jsOrNullNat (n : Nat) : Option Nat :=
  if n == 0 then none else some n

/-- JS truthiness `x || null` on a string: `""` is falsy. -/
def jsOrNullStr (s : String) : Option String :=
  if s == "" then none else some s

/-- The query shapes `getQueryFromId` can build:
`{ userID: n }`, `{ _id: ObjectId(s) }`, or the never-matching
`{ _id: { $exists: false } }` (every stored document has an `_id`). -/
inductive Query where
  | byUserID : Int → Query
  | byOid : String → Query
  | matchNone : Query
deriving Repr, DecidableEq

/-- Whether a stored document matches a query.  `matchNone` matches nothing
because Mongo guarantees every stored document carries an `_id`. -/
def Query.matches : Query → Doc → Bool
  | .byUserID n, d => (d.userID : Int) == n
  | .byOid s, d => d.oid == s
  | .matchNone, _ => false

/-- The bson `ObjectId` constructor on a string: succeeds exactly on 24
hexadecimal characters (case-insensitive), normalizing to the canonical
lowercase form; otherwise it throws, modeled as `none` (the source wraps the
call in `try`/`catch`). -/
def objectIdOfString (s : String) : Option String :=
  if isHex24 s then some (strToLower s) else none

/-- JS values an id token can take in this code base. -/
inductive IdToken where
  | num : Int → IdToken
  | str : String → IdToken
  | nullOrUndefined : IdToken
deriving Repr, DecidableEq

/-- Model of `getQueryFromId` (src/db/index.js:137-151): `undefined`/`null`
and empty/malformed tokens yield the never-matching query; numbers and
all-digit strings query by `userID`; other strings are parsed as ObjectId,
falling back to the never-matching query.  The function is total: it never
throws. -/
def getQueryFromId : IdToken → Query
  | .nullOrUndefined => .matchNone
  | .num n => .byUserID n
  | .str s =>
    let t := jsTrim s
    if t.length == 0 then .matchNone
    else if isDigitString t then .byUserID (parseIntDigits t)
    else match objectIdOfString t with
      | some canonical => .byOid canonical
      | none => .matchNone

/-- The public shape `toPublic` returns for a well-formed stored document. -/
structure Pub where
  id : Option String
  userID : Option Nat
  name : String
  value : String
  created : Option String
  createdAt : Option Nat
  updatedAt : Option Nat
  updated : Option String
deriving Repr, DecidableEq

/-- Model of `toPublic` (src/db/index.js:118-134) on a stored document: the
`_id` (an ObjectId, always truthy) is string-coerced; `userID` falls to
`null` when falsy; `created` is the first 10 characters of the createdAt ISO
string; `updated` re-renders `updatedAt` at seconds precision (on the
canonical ISO strings this program stores, `new Date(s).toISOString() = s`).
Raw timestamps are exposed as their ticks. -/
def toPublicD (d : Doc) : Pub :=
  { id := some d.oid
  , userID := jsOrNullNat d.userID
  , name := d.name
  , value := d.value
  , created := some ((isoOf d.createdAt).take 10)
  , createdAt := some d.createdAt
  , updatedAt := d.updatedAt
  , updated := d.updatedAt.map fun t => secondsPrecision (isoOf t) }

/-! ## Record store state machine -/

/-- An entry of a backup snapshot: the projection
`{_id: String(d._id), userID, name, value, createdAt}` with JS `|| null`
truthiness on each field (`createdAt`, an always-nonempty ISO string, stays
present and is kept as its tick). -/
structure BackupEntry where
  oidStr : Option String
  userID : Option Nat
  name : Option String
  value : Option String
  createdAt : Option Nat
deriving Repr, DecidableEq

/-- Projection of a stored document into a backup entry
(src/db/index.js:61-67). -/
def backupEntryOf (d : Doc) : BackupEntry :=
  { oidStr := some d.oid
  , userID := jsOrNullNat d.userID
  , name := jsOrNullStr d.name
  , value := jsOrNullStr d.value
  , createdAt := some d.createdAt }

/-- The module-level mutable state of src/db/index.js plus observable
side-effect logs: `connected` models `collection !== null`; `docs` is the
`records` collection in natural (insertion) order; `staticUserId` is the
process-wide counter; `oidSeed` feeds driver-side ObjectId generation;
`backups` lists written backup files; `backupCalls` is a ghost counter of
`createBackup` invocations (backup triggers); `events` logs
`vaultEvents.emit` calls. -/
structure DB where
  connected : Bool
  docs : List Doc
  staticUserId : Nat
  oidSeed : Nat
  backups : List (String × List BackupEntry)
  backupCalls : Nat
  events : List (String × Option Pub)
deriving Repr, DecidableEq

/-- Module-load state: `staticUserId = 1`, nothing connected. -/
def initDB : DB :=
  { connected := false, docs := [], staticUserId := 1, oidSeed := 0
  , backups := [], backupCalls := 0, events := [] }

/-- Environment failure switches for one operation: whether
`client.connect()` rejects, whether the max-userID seeding scan throws,
whether `insertOne` rejects, and whether the backup's find-or-write step
throws. -/
structure Flags where
  connectFails : Bool
  scanFails : Bool
  insertFails : Bool
  backupWriteFails : Bool
deriving Repr, DecidableEq

/-- All environment steps succeed. -/
def noFails : Flags := ⟨false, false, false, false⟩

/-- The top 1 of `find({userID:{$exists:true}}).sort({userID:-1})` over the
model collection (all stored userIDs are finite numbers): the maximum. -/
def maxUserID (docs : List Doc) : Nat :=
  docs.foldr (fun d m => max d.userID m) 0

/-- State after a successful `ensureConnection` (src/db/index.js:80-115): if
already connected, nothing happens; otherwise the connection is established
and `staticUserId` is reseeded to `max existing userID + 1` when the scan
succeeds on a non-empty collection, and kept at its current value when the
collection is empty or the scan throws. -/
def connectState (st : DB) (scanFails : Bool) : DB :=
  if st.connected then st
  else
    { st with
      connected := true,
      staticUserId :=
        if scanFails then st.staticUserId
        else match st.docs with
          | [] => st.staticUserId
          | _ :: _ => maxUserID st.docs + 1 }

/-- `ensureConnection`: throws (`Except.error`) when a fresh connection is
needed and `client.connect()` rejects; otherwise yields `connectState`. -/
def ensureConnection (st : DB) (connectFails scanFails : Bool) : Except Unit DB :=
  if st.connected then .ok st
  else if connectFails then .error ()
  else .ok (connectState st scanFails)

/-- Model of `createBackup` (src/db/index.js:53-77).  Never throws: a failed
internal `ensureConnection` returns after logging; a failed find/write is
caught and logged.  The ghost `backupCalls` counts every invocation
(trigger), whether or not a file gets written. -/
def createBackup (st : DB) (now : Nat) (fl : Flags) : DB :=
  let st0 := { st with backupCalls := st.backupCalls + 1 }
  if st0.connected then
    if fl.backupWriteFails then st0
    else { st0 with backups := st0.backups ++ [(backupFileName now, st0.docs.map backupEntryOf)] }
  else
    match ensureConnection st0 fl.connectFails fl.scanFails with
    | .error _ => st0
    | .ok st1 =>
      if fl.backupWriteFails then st1
      else { st1 with backups := st1.backups ++ [(backupFileName now, st1.docs.map backupEntryOf)] }

/-- Model of `addRecord` (src/db/index.js:166-178).  After ensuring the
connection it reads the counter and post-increments it (`staticUserId++`),
stamps `createdAt`, inserts (the driver generates the ObjectId client-side;
`insertOne` rejects on environment failure or on a duplicate `_id`, which the
unique index forbids), re-reads the inserted document by `_id`, normalizes
it, emits `recordAdded`, triggers a backup (failures caught), and returns the
normalized record.  A thrown insert propagates, with the counter increment
already performed. -/
def addRecord (st : DB) (nm v : String) (now : Nat) (fl : Flags) :
    Except Unit (Option Pub) × DB :=
  match ensureConnection st fl.connectFails fl.scanFails with
  | .error _ => (.error (), st)
  | .ok st1 =>
    let userID := st1.staticUserId
    let st2 := { st1 with staticUserId := userID + 1 }
    let oid := oidString st2.oidSeed
    let st2b := { st2 with oidSeed := st2.oidSeed + 1 }
    if fl.insertFails || st2b.docs.any (fun d => d.oid == oid) then
      (.error (), st2b)
    else
      let doc : Doc := { oid := oid, userID := userID, name := nm, value := v
                       , createdAt := now, updatedAt := none }
      let st3 := { st2b with docs := st2b.docs ++ [doc] }
      let out := (st3.docs.find? fun d => d.oid == oid).map toPublicD
      let st4 := { st3 with events := st3.events ++ [("recordAdded", out)] }
      (.ok out, createBackup st4 now fl)

/-- `findOneAndUpdate(query, {$set:{name,value,updatedAt}},
{returnDocument:'after'})` on a collection in natural order: rewrite the
first matching document, returning its post-update state. -/
def updateFirst (docs : List Doc) (q : Query) (nm v : String) (t : Nat) :
    Option Doc × List Doc :=
  match docs with
  | [] => (none, [])
  | d :: rest =>
    if q.matches d then
      let d' := { d with name := nm, value := v, updatedAt := some t }
      (some d', d' :: rest)
    else
      let r := updateFirst rest q nm v t
      (r.1, d :: r.2)

/-- `findOneAndDelete(query)`: remove the first matching document, returning
its prior state. -/
def deleteFirst (docs : List Doc) (q : Query) : Option Doc × List Doc :=
  match docs with
  | [] => (none, [])
  | d :: rest =>
    if q.matches d then (some d, rest)
    else
      let r := deleteFirst rest q
      (r.1, d :: r.2)

/-- Model of `updateRecord` (src/db/index.js:186-200): resolve the id, stamp
`updatedAt`, update the first match in place; on no match return `null`
without raising; on a match emit `recordUpdated` and return the new public
state.  No backup is triggered. -/
def updateRecord (st : DB) (id : IdToken) (nm v : String) (now : Nat) (fl : Flags) :
    Except Unit (Option Pub) × DB :=
  match ensureConnection st fl.connectFails fl.scanFails with
  | .error _ => (.error (), st)
  | .ok st1 =>
    let q := getQueryFromId id
    match updateFirst st1.docs q nm v now with
    | (none, _) => (.ok none, st1)
    | (some d', docs') =>
      let out := toPublicD d'
      (.ok (some out),
        { st1 with docs := docs', events := st1.events ++ [("recordUpdated", some out)] })

/-- Model of `deleteRecord` (src/db/index.js:202-213): resolve the id, delete
the first match; on no match return `null` without raising and with no
backup; on a match emit `recordDeleted`, trigger a backup, and return the
removed record's prior public state. -/
def deleteRecord (st : DB) (id : IdToken) (now : Nat) (fl : Flags) :
    Except Unit (Option Pub) × DB :=
  match ensureConnection st fl.connectFails fl.scanFails with
  | .error _ => (.error (), st)
  | .ok st1 =>
    let q := getQueryFromId id
    match deleteFirst st1.docs q with
    | (none, _) => (.ok none, st1)
    | (some d, docs') =>
      let out := toPublicD d
      let st2 := { st1 with docs := docs', events := st1.events ++ [("recordDeleted", some out)] }
      (.ok (some out), createBackup st2 now fl)

/-- Model of `listRecords` (src/db/index.js:180-184). -/
def listRecords (st : DB) (fl : Flags) : Except Unit (List Pub) × DB :=
  match ensureConnection st fl.connectFails fl.scanFails with
  | .error _ => (.error (), st)
  | .ok st1 => (.ok (st1.docs.map toPublicD), st1)

/-! ## Traces of mutating calls within one process -/

/-- One mutating API call issued by the shell: `addRecord`, `updateRecord`,
or `deleteRecord`, with its wall-clock tick and environment outcome. -/
inductive Op where
  | add : String → String → Nat → Flags → Op
  | upd : IdToken → String → String → Nat → Flags → Op
  | del : IdToken → Nat → Flags → Op
deriving Repr, DecidableEq

/-- Run one call; the second component is the `userID` of the record a
successful `addRecord` returned, if any. -/
def stepOp (st : DB) : Op → DB × Option Nat
  | .add nm v now fl =>
    match addRecord st nm v now fl with
    | (.ok (some p), st') => (st', p.userID)
    | (_, st') => (st', none)
  | .upd id nm v now fl => ((updateRecord st id nm v now fl).2, none)
  | .del id now fl => ((deleteRecord st id now fl).2, none)

/-- Run a sequence of calls, collecting the `userID`s assigned by the
successful adds, in call order. -/
def runOps (st : DB) : List Op → DB × List Nat
  | [] => (st, [])
  | op :: rest =>
    let s := stepOp st op
    let r := runOps s.1 rest
    (r.1, s.2.toList ++ r.2)

/-! ## `toPublic` on arbitrary documents

`toPublic` is also examined on arbitrary (possibly malformed) input
documents, so a raw document type keeps every field optional, with JS
values at the string level. -/

/-- An arbitrary input document for `toPublic`: `mongoId` models `_id`
(string-coerced form; the source's `try doc._id.toString() catch
String(doc._id)` both land on the coercion), `jsId` models the fallback
`doc.id` field; the timestamps are raw JS strings. -/
structure RawDoc where
  mongoId : Option String
  jsId : Option String
  userID : Option Nat
  name : Option String
  value : Option String
  createdAt : Option String
  updatedAt : Option String
deriving Repr, DecidableEq

/-- JS truthiness of a possibly-absent string: absent and `""` are falsy. -/
def jsTruthyStr : Option String → Bool
  | none => false
  | some s => !(s == "")

/-- JS `x || null` on a possibly-absent number: absent and `0` are falsy. -/
def jsOrNullNatOpt : Option Nat → Option Nat
  | none => none
  | some n => if n == 0 then none else some n

/-- Output shape of `toPublic` on an arbitrary document (fields that can be
`undefined`/`null` are optional). -/
structure RawPub where
  id : Option String
  userID : Option Nat
  name : Option String
  value : Option String
  created : Option String
  createdAt : Option String
  updatedAt : Option String
  updated : Option String
deriving Repr, DecidableEq

/-- Model of `toPublic` (src/db/index.js:118-134) on an arbitrary document.
A `null`/absent document yields `null`.  The id is degraded to a string
coercion or `null`, never raising.  `created` slices the first 10 characters
of a truthy `createdAt`.  The seconds-precision `updated` rendering calls
`new Date(updatedAt).toISOString()`, which throws `RangeError` when the
truthy `updatedAt` string is not a parseable timestamp — modeled as
`Except.error`; on the canonical shape (`isCanonIso`) the round-trip is the
identity, so the rendering transforms the string directly. -/
def toPublicRaw (doc : Option RawDoc) : Except String (Option RawPub) :=
  match doc with
  | none => .ok none
  | some d =>
    let id : Option String :=
      if jsTruthyStr d.mongoId then some (d.mongoId.getD "")
      else if jsTruthyStr d.jsId then some (d.jsId.getD "")
      else none
    let created : Option String :=
      if jsTruthyStr d.createdAt then some ((d.createdAt.getD "").take 10) else none
    let createdAtISO := if jsTruthyStr d.createdAt then d.createdAt else none
    let updatedAtISO := if jsTruthyStr d.updatedAt then d.updatedAt else none
    match updatedAtISO with
    | none =>
      .ok (some { id := id, userID := jsOrNullNatOpt d.userID, name := d.name
                , value := d.value, created := created, createdAt := createdAtISO
                , updatedAt := none, updated := none })
    | some upd =>
      if isCanonIso upd then
        .ok (some { id := id, userID := jsOrNullNatOpt d.userID, name := d.name
                  , value := d.value, created := created, createdAt := createdAtISO
                  , updatedAt := some upd, updated := some (secondsPrecision upd) })
      else .error "RangeError: Invalid time value"

/-! ## Activity logger (src/events/logger.js)

The logger guards its subscriptions with
`if (db && db.emitter && db.emitter.on)` and listens on the event names
`add`/`update`/`delete`, while src/db/index.js exports only the six API
functions (no `emitter`) and emits `recordAdded`/`recordUpdated`/
`recordDeleted` on the shared `vaultEvents` bus. -/

/-- Keys of `module.exports` of src/db/index.js:215-222. -/
def dbModuleExports : List String :=
  ["init", "close", "addRecord", "listRecords", "updateRecord", "deleteRecord"]

/-- Truthiness of `db.emitter`: whether the db module exports an `emitter`. -/
def dbEmitterDefined : Bool := dbModuleExports.contains "emitter"

/-- Event names the logger's subscription block listens for. -/
def intendedLoggerEvents : List String := ["add", "update", "delete"]

/-- Event names src/db/index.js actually emits. -/
def emittedEventKinds : List String := ["recordAdded", "recordUpdated", "recordDeleted"]

/-- Interpolated line body `"<ACTION> id=<id> name=<name>"` (JS templates
render `null` as the string "null"). -/
def loggerLine (action : String) (rec : Pub) : String :=
  action ++ " id=" ++ (rec.id.getD "null") ++ " name=" ++ rec.name

/-- Model of `writeLog`: the line appended to `logs/db.log` (and echoed to
the console without the trailing newline). -/
def writeLogLine (ts : Nat) (line : String) : String :=
  "[" ++ isoOf ts ++ "] " ++ line ++ "\n"

/-- The event names the logger ends up subscribed to at startup: the guard
`db.emitter && db.emitter.on` fails (the db module exports no emitter), so
the subscription block is skipped entirely. -/
def loggerSubscribedEvents : List String :=
  if dbEmitterDefined then intendedLoggerEvents else []

/-! ## Search (menu case '2' of src/index.js) -/

/-- The filter predicate of the Search Records menu entry
(src/index.js:62-71): match by numeric userID equality (`Number(null) = 0`),
or by case-insensitive substring of the Mongo id, or by case-insensitive
substring of the name. -/
def searchMatches (term : String) (r : Pub) : Bool :=
  let lower := strToLower term
  (isDigitString term && (r.userID.getD 0 == parseIntDigits term)) ||
  strIncludes (strToLower (r.id.getD "")) lower ||
  strIncludes (strToLower r.name) lower

/-- The search operation: trim the keyword; an empty keyword performs no
search (the menu re-prompts); otherwise filter the listed records.  Records
coming from `listRecords` are never `null`, so the `if (!r) return false`
guard is not modeled. -/
def searchOp (input : String) (records : List Pub) : Option (List Pub) :=
  let term := jsTrim input
  if term == "" then none
  else some (records.filter fun r => searchMatches term r)

/-- The spec-side criterion for search: the record's name contains the
keyword as a case-insensitive substring. -/
def specNameMatch (kw : String) (r : Pub) : Bool :=
  strIncludes (strToLower r.name) (strToLower kw)

/-- The code's additional criterion: the keyword is numeric and equals the
record's userID (with `null` coerced to 0). -/
def specUserIdMatch (kw : String) (r : Pub) : Bool :=
  isDigitString kw && (r.userID.getD 0 == parseIntDigits kw)

/-- The code's additional criterion: the storage id contains the keyword as
a case-insensitive substring. -/
def specIdMatch (kw : String) (r : Pub) : Bool :=
  strIncludes (strToLower (r.id.getD "")) (strToLower kw)

/-! ## Concrete fixtures used by witnesses and counterexamples -/

/-- A db state that is already connected to an empty store. -/
def connectedInit : DB := { initDB with connected := true }

/-- A stored record whose name is "zzz" but whose userID is 5. -/
def cexRecord : Pub :=
  { id := some "507f1f77bcf86cd799439011", userID := some 5, name := "zzz", value := "v"
  , created := none, createdAt := none, updatedAt := none, updated := none }

/-- A document whose `updatedAt` holds a truthy string that is not a
parseable timestamp. -/
def badDoc : RawDoc :=
  { mongoId := none, jsId := none, userID := some 7, name := some "A", value := some "1"
  , createdAt := none, updatedAt := some "not-a-date" }

/-- A well-formed raw document. -/
def goodRawDoc : RawDoc :=
  { mongoId := some "507f1f77bcf86cd799439011", jsId := none, userID := some 3
  , name := some "A", value := some "1"
  , createdAt := some "2025-11-04T15:22:10.123Z", updatedAt := some "2025-11-05T08:00:01.000Z" }

/-- A single stored document with userID 1. -/
def docA : Doc := Doc.mk "00000000000000000000000a" 1 "A" "1" 5 none

/-- A connected state holding exactly `docA`, counter at 2. -/
def stOne : DB :=
  { connected := true, docs := [docA], staticUserId := 2, oidSeed := 1
  , backups := [], backupCalls := 0, events := [] }

/-- A disconnected state over a store holding `docA` with userID 1 — a
reconnect scenario. -/
def stReconnect : DB :=
  { connected := false, docs := [docA], staticUserId := 1, oidSeed := 1
  , backups := [], backupCalls := 0, events := [] }

/-! ## Supporting lemmas -/

theorem connectState_connected (st : DB) (sf : Bool) : (connectState st sf).connected = true := by
  unfold connectState
  split
  · assumption
  · rfl

theorem connectState_of_connected (st : DB) (sf : Bool) (h : st.connected = true) :
    connectState st sf = st := by
  unfold connectState
  simp [h]

theorem connectState_docs (st : DB) (sf : Bool) : (connectState st sf).docs = st.docs := by
  unfold connectState
  split <;> rfl

theorem connectState_oidSeed (st : DB) (sf : Bool) : (connectState st sf).oidSeed = st.oidSeed := by
  unfold connectState
  split <;> rfl

theorem connectState_backupCalls (st : DB) (sf : Bool) :
    (connectState st sf).backupCalls = st.backupCalls := by
  unfold connectState
  split <;> rfl

theorem connectState_counter_pos (st : DB) (sf : Bool) (h : 1 ≤ st.staticUserId) :
    1 ≤ (connectState st sf).staticUserId := by
  unfold connectState
  split
  · exact h
  · simp only
    split
    · exact h
    · split
      · exact h
      · omega

theorem ensureConnection_of_connected (st : DB) (cf sf : Bool) (h : st.connected = true) :
    ensureConnection st cf sf = .ok st := by
  unfold ensureConnection
  simp [h]

theorem ensureConnection_eq (st : DB) (sf : Bool) :
    ensureConnection st false sf = .ok (connectState st sf) := by
  unfold ensureConnection
  split
  · rw [connectState_of_connected st sf (by assumption)]
  · simp

theorem ensureConnection_ok_connected (st st1 : DB) (cf sf : Bool)
    (h : ensureConnection st cf sf = .ok st1) : st1.connected = true := by
  unfold ensureConnection at h
  split at h
  · cases h
    assumption
  · split at h
    · cases h
    · cases h
      exact connectState_connected st sf

theorem createBackup_of_connected (st : DB) (now : Nat) (fl : Flags) (h : st.connected = true) :
    (createBackup st now fl).connected = true ∧
    (createBackup st now fl).staticUserId = st.staticUserId ∧
    (createBackup st now fl).oidSeed = st.oidSeed ∧
    (createBackup st now fl).docs = st.docs ∧
    (createBackup st now fl).events = st.events ∧
    (createBackup st now fl).backupCalls = st.backupCalls + 1 ∧
    (fl.backupWriteFails = true → (createBackup st now fl).backups = st.backups) ∧
    (fl.backupWriteFails = false →
      (createBackup st now fl).backups =
        st.backups ++ [(backupFileName now, st.docs.map backupEntryOf)]) := by
  unfold createBackup
  simp only [h, if_true]
  cases hw : fl.backupWriteFails <;> simp [hw, h]

theorem jsOrNullNat_pos (n : Nat) (h : 1 ≤ n) : jsOrNullNat n = some n := by
  unfold jsOrNullNat
  simp
  omega

theorem find?_append_singleton {α : Type} (p : α → Bool) (l : List α) (a : α)
    (h : l.any p = false) (ha : p a = true) : (l ++ [a]).find? p = some a := by
  induction l with
  | nil => simp [List.find?, ha]
  | cons b bs ih =>
    rw [List.any_cons] at h
    have h1 : p b = false := by
      cases hb : p b
      · rfl
      · rw [hb] at h
        simp at h
    have h2 : bs.any p = false := by
      cases hb : bs.any p
      · rfl
      · rw [hb] at h
        simp at h
    rw [List.cons_append, List.find?_cons_of_neg, ih h2]
    simp [h1]

theorem updateFirst_fst (docs : List Doc) (q : Query) (nm v : String) (t : Nat) :
    (updateFirst docs q nm v t).1 =
      (docs.find? fun d => q.matches d).map
        (fun d => { d with name := nm, value := v, updatedAt := some t }) := by
  induction docs with
  | nil => rfl
  | cons d rest ih =>
    unfold updateFirst
    cases h : q.matches d
    · simp [List.find?_cons_of_neg, h, ih]
    · simp [List.find?_cons_of_pos, h]

theorem deleteFirst_fst (docs : List Doc) (q : Query) :
    (deleteFirst docs q).1 = docs.find? fun d => q.matches d := by
  induction docs with
  | nil => rfl
  | cons d rest ih =>
    unfold deleteFirst
    cases h : q.matches d
    · simp [List.find?_cons_of_neg, h, ih]
    · simp [List.find?_cons_of_pos, h]

theorem addRecord_connectError (st : DB) (nm v : String) (now : Nat) (fl : Flags)
    (hE : ensureConnection st fl.connectFails fl.scanFails = .error ()) :
    addRecord st nm v now fl = (.error (), st) := by
  unfold addRecord
  rw [hE]

theorem addRecord_success (st : DB) (nm v : String) (now : Nat) (fl : Flags)
    (hcf : fl.connectFails = false) (hins : fl.insertFails = false)
    (hfresh : st.docs.any (fun d => d.oid == oidString st.oidSeed) = false) :
    (addRecord st nm v now fl).1 =
      .ok (some (toPublicD (Doc.mk (oidString st.oidSeed)
        (connectState st fl.scanFails).staticUserId nm v now none))) ∧
    (addRecord st nm v now fl).2.connected = true ∧
    (addRecord st nm v now fl).2.staticUserId = (connectState st fl.scanFails).staticUserId + 1 ∧
    (addRecord st nm v now fl).2.docs = (connectState st fl.scanFails).docs ++
      [Doc.mk (oidString st.oidSeed) (connectState st fl.scanFails).staticUserId nm v now none] ∧
    (addRecord st nm v now fl).2.backupCalls = st.backupCalls + 1 ∧
    (addRecord st nm v now fl).2.oidSeed = st.oidSeed + 1 := by
  have hfind := find?_append_singleton (fun d => d.oid == oidString st.oidSeed) st.docs
    (Doc.mk (oidString st.oidSeed) (connectState st fl.scanFails).staticUserId nm v now none)
    hfresh (by simp)
  cases hw : fl.backupWriteFails <;>
    simp [addRecord, createBackup, hcf, hw, hins, ensureConnection_eq, hfresh, hfind,
      connectState_docs, connectState_oidSeed, connectState_connected, connectState_backupCalls]

theorem addRecord_insertFail (st : DB) (nm v : String) (now : Nat) (fl : Flags)
    (hcf : fl.connectFails = false) (hins : fl.insertFails = true) :
    (addRecord st nm v now fl).1 = .error () ∧
    (addRecord st nm v now fl).2.connected = true ∧
    (addRecord st nm v now fl).2.staticUserId = (connectState st fl.scanFails).staticUserId + 1 ∧
    (addRecord st nm v now fl).2.docs = (connectState st fl.scanFails).docs ∧
    (addRecord st nm v now fl).2.backupCalls = st.backupCalls := by
  simp [addRecord, hcf, hins, ensureConnection_eq, connectState_docs,
    connectState_connected, connectState_backupCalls]

theorem addRecord_general (st : DB) (nm v : String) (now : Nat) (fl : Flags) (st1 : DB)
    (hE : ensureConnection st fl.connectFails fl.scanFails = .ok st1) :
    (addRecord st nm v now fl).2.connected = true ∧
    (addRecord st nm v now fl).2.staticUserId = st1.staticUserId + 1 ∧
    (∀ p : Pub, (addRecord st nm v now fl).1 = .ok (some p) →
      p.userID = jsOrNullNat st1.staticUserId) := by
  have h1 : st1.connected = true := ensureConnection_ok_connected st st1 _ _ hE
  unfold addRecord
  rw [hE]
  simp only
  split
  · simp [h1]
  · rename_i hguard
    have hany : st1.docs.any (fun d => d.oid == oidString st1.oidSeed) = false := by
      cases ha : st1.docs.any (fun d => d.oid == oidString st1.oidSeed)
      · rfl
      · rw [ha] at hguard
        simp at hguard
    have hfind := find?_append_singleton (fun d => d.oid == oidString st1.oidSeed) st1.docs
      (Doc.mk (oidString st1.oidSeed) st1.staticUserId nm v now none) hany (by simp)
    constructor
    · exact (createBackup_of_connected _ now fl (by simp [h1])).1
    · constructor
      · rw [(createBackup_of_connected _ now fl (by simp [h1])).2.1]
      · intro p hp
        simp [hfind] at hp
        rw [← hp]
        rfl

theorem updateRecord_state (st : DB) (id : IdToken) (nm v : String) (now : Nat) (fl : Flags)
    (h : st.connected = true) :
    (updateRecord st id nm v now fl).2.connected = true ∧
    (updateRecord st id nm v now fl).2.staticUserId = st.staticUserId ∧
    (updateRecord st id nm v now fl).2.backupCalls = st.backupCalls := by
  unfold updateRecord
  rw [ensureConnection_of_connected st _ _ h]
  simp only
  split <;> simp [h]

theorem deleteRecord_state (st : DB) (id : IdToken) (now : Nat) (fl : Flags)
    (h : st.connected = true) :
    (deleteRecord st id now fl).2.connected = true ∧
    (deleteRecord st id now fl).2.staticUserId = st.staticUserId := by
  unfold deleteRecord
  rw [ensureConnection_of_connected st _ _ h]
  simp only
  split
  · simp [h]
  · constructor
    · exact (createBackup_of_connected _ now fl (by simp [h])).1
    · rw [(createBackup_of_connected _ now fl (by simp [h])).2.1]

theorem stepOp_fst_add (st : DB) (nm v : String) (now : Nat) (fl : Flags) :
    (stepOp st (Op.add nm v now fl)).1 = (addRecord st nm v now fl).2 := by
  simp only [stepOp]
  rcases haddr : addRecord st nm v now fl with ⟨r, st'⟩
  cases r with
  | error e => rfl
  | ok o => cases o <;> rfl

theorem stepOp_mono (st : DB) (op : Op) (h : st.connected = true) :
    (stepOp st op).1.connected = true ∧ st.staticUserId ≤ (stepOp st op).1.staticUserId := by
  cases op with
  | add nm v now fl =>
    have hE : ensureConnection st fl.connectFails fl.scanFails = .ok st :=
      ensureConnection_of_connected st _ _ h
    have hg := addRecord_general st nm v now fl st hE
    rw [stepOp_fst_add]
    exact ⟨hg.1, by omega⟩
  | upd id nm v now fl =>
    have hu := updateRecord_state st id nm v now fl h
    exact ⟨hu.1, by rw [show (stepOp st (Op.upd id nm v now fl)).1 =
      (updateRecord st id nm v now fl).2 from rfl, hu.2.1]⟩
  | del id now fl =>
    have hd := deleteRecord_state st id now fl h
    exact ⟨hd.1, by rw [show (stepOp st (Op.del id now fl)).1 =
      (deleteRecord st id now fl).2 from rfl, hd.2]⟩

theorem stepOp_assigned (st : DB) (op : Op) (n : Nat) (h2 : (stepOp st op).2 = some n) :
    (stepOp st op).1.connected = true ∧ n < (stepOp st op).1.staticUserId ∧
    (st.connected = true → st.staticUserId ≤ n) := by
  cases op with
  | upd id nm v now fl => exact absurd h2 (by simp [stepOp])
  | del id now fl => exact absurd h2 (by simp [stepOp])
  | add nm v now fl =>
    cases hE : ensureConnection st fl.connectFails fl.scanFails with
    | error e =>
      exfalso
      have heq : addRecord st nm v now fl = (.error (), st) :=
        addRecord_connectError st nm v now fl (by cases e; exact hE)
      simp only [stepOp] at h2
      rw [heq] at h2
      cases h2
    | ok st1 =>
      have hg := addRecord_general st nm v now fl st1 hE
      have hp : ∃ p : Pub, (addRecord st nm v now fl).1 = .ok (some p) ∧ p.userID = some n := by
        simp only [stepOp] at h2
        rcases haddr : addRecord st nm v now fl with ⟨r, st'⟩
        rw [haddr] at h2
        cases r with
        | error e => cases h2
        | ok o =>
          cases o with
          | none => cases h2
          | some p => exact ⟨p, rfl, h2⟩
      rcases hp with ⟨p, hpr, hpu⟩
      have hju : p.userID = jsOrNullNat st1.staticUserId := hg.2.2 p hpr
      have hn : n = st1.staticUserId := by
        rw [hju] at hpu
        unfold jsOrNullNat at hpu
        split at hpu
        · cases hpu
        · cases hpu
          rfl
      rw [stepOp_fst_add]
      refine ⟨hg.1, by omega, ?_⟩
      intro hcon
      have : Except.ok (ε := Unit) st = .ok st1 := by
        rw [← hE, ensureConnection_of_connected st _ _ hcon]
      cases this
      omega

theorem runOps_lowerBound (ops : List Op) : ∀ st : DB, st.connected = true →
    ∀ n ∈ (runOps st ops).2, st.staticUserId ≤ n := by
  induction ops with
  | nil => intro st h n hn; simp [runOps] at hn
  | cons op rest ih =>
    intro st h n hn
    unfold runOps at hn
    simp only [List.mem_append] at hn
    cases hn with
    | inl hmem =>
      have hsome : (stepOp st op).2 = some n := by
        cases hs : (stepOp st op).2 with
        | none => rw [hs] at hmem; cases hmem
        | some m =>
          rw [hs] at hmem
          simp [Option.toList] at hmem
          rw [hmem]
      exact ((stepOp_assigned st op n hsome).2.2) h
    | inr hmem =>
      have hm := stepOp_mono st op h
      have := ih (stepOp st op).1 hm.1 n hmem
      omega

/-- Calendar validation of `isCanonIso` agrees with JS `Date.parse` on
legal versus illegal element values: well-formed dates (including leap-day
Feb 29 of 2024 and 2000) are accepted, while Feb 30, Feb 29 of the non-leap
years 2023 and 2100, and Apr 31 are rejected (on those, the source's
`new Date(s).toISOString()` throws `RangeError`). -/
theorem isCanonIso_calendar :
    isCanonIso "2025-11-04T15:22:10.123Z" = true ∧
    isCanonIso "2024-02-29T00:00:00.000Z" = true ∧
    isCanonIso "2000-02-29T00:00:00.000Z" = true ∧
    isCanonIso "2025-02-30T00:00:00.000Z" = false ∧
    isCanonIso "2023-02-29T12:00:00.000Z" = false ∧
    isCanonIso "2100-02-29T00:00:00.000Z" = false ∧
    isCanonIso "2025-04-31T12:00:00.000Z" = false := by
  decide

/-! ## Claim theorems -/

theorem intCast_beq_eq (a b : Nat) : ((a : Int) == (b : Int)) = (a == b) := by
  cases h : a == b with
  | true =>
    have h' : a = b := by simpa using h
    simp [h']
  | false =>
    have h' : a ≠ b := by simpa using h
    rw [beq_eq_false_iff_ne]
    exact fun hc => h' (by exact_mod_cast hc)

/-- C1: within a single process, along any sequence of mutating calls
(`addRecord` / `updateRecord` / `deleteRecord`, so records may be deleted in
between, and individual calls may fail), the `userID`s assigned by the
successful `addRecord` calls are strictly increasing in call order: each
assigned `userID` is strictly greater than every `userID` assigned earlier,
and no assigned `userID` is ever reused. -/
theorem c1_userIds_strictly_increasing (st : DB) (ops : List Op) :
    List.Pairwise (· < ·) (runOps st ops).2 := by
  induction ops generalizing st with
  | nil => simp [runOps]
  | cons op rest ih =>
    simp only [runOps]
    cases hs : (stepOp st op).2 with
    | none => simpa [Option.toList] using ih (stepOp st op).1
    | some n =>
      simp only [Option.toList, List.cons_append, List.nil_append]
      refine List.Pairwise.cons ?_ (ih _)
      intro m hm
      have ha := stepOp_assigned st op n hs
      have hlb := runOps_lowerBound rest (stepOp st op).1 ha.1 m hm
      omega

/-- C10: when the insert inside `addRecord` fails and the call raises, the
process-wide counter has still advanced (the collection is unchanged), and
the `userID` allocated to the failed call is permanently skipped: no later
sequence of mutating calls ever assigns it. -/
theorem c10_failed_insert_skips_userid (st : DB) (nm v : String) (now : Nat) (sf : Bool) :
    (addRecord st nm v now ⟨false, sf, true, false⟩).1 = .error () ∧
    (addRecord st nm v now ⟨false, sf, true, false⟩).2.staticUserId =
      (connectState st sf).staticUserId + 1 ∧
    (addRecord st nm v now ⟨false, sf, true, false⟩).2.docs = (connectState st sf).docs ∧
    ∀ ops : List Op, (connectState st sf).staticUserId ∉
      (runOps (addRecord st nm v now ⟨false, sf, true, false⟩).2 ops).2 := by
  have hins := addRecord_insertFail st nm v now ⟨false, sf, true, false⟩ rfl rfl
  rw [show (⟨false, sf, true, false⟩ : Flags).scanFails = sf from rfl] at hins
  refine ⟨hins.1, hins.2.2.1, hins.2.2.2.1, ?_⟩
  intro ops hmem
  have hlb := runOps_lowerBound ops (addRecord st nm v now ⟨false, sf, true, false⟩).2
    hins.2.1 _ hmem
  rw [hins.2.2.1] at hlb
  omega

/-- C2: id resolution for `updateRecord`/`deleteRecord` never throws and
matches as follows: a `null`/`undefined` token matches nothing; a numeric
token matches exactly by `userID` equality; an all-digit string token
matches exactly by `userID` equality with its parsed value; a non-numeric
well-formed ObjectId token matches exactly by the storage engine's native
id; an empty or malformed token matches nothing. -/
theorem c2_id_resolution :
    (∀ d : Doc, Query.matches (getQueryFromId IdToken.nullOrUndefined) d = false) ∧
    (∀ (n : Int) (d : Doc),
      Query.matches (getQueryFromId (IdToken.num n)) d = ((d.userID : Int) == n)) ∧
    (∀ s : String, isDigitString (jsTrim s) = true → ∀ d : Doc,
      Query.matches (getQueryFromId (IdToken.str s)) d =
        (d.userID == parseIntDigits (jsTrim s))) ∧
    (∀ s : String, isDigitString (jsTrim s) = false → isHex24 (jsTrim s) = true → ∀ d : Doc,
      Query.matches (getQueryFromId (IdToken.str s)) d = (d.oid == strToLower (jsTrim s))) ∧
    (∀ s : String, isDigitString (jsTrim s) = false → isHex24 (jsTrim s) = false → ∀ d : Doc,
      Query.matches (getQueryFromId (IdToken.str s)) d = false) := by
  refine ⟨fun d => rfl, fun n d => rfl, ?_, ?_, ?_⟩
  · intro s hdig d
    have h1 : (jsTrim s).length ≠ 0 := by
      have h := hdig
      simp only [isDigitString, Bool.and_eq_true, bne_iff_ne, ne_eq] at h
      exact h.1
    simp [getQueryFromId, Query.matches, hdig, h1, intCast_beq_eq]
  · intro s hnd hhex d
    have hlen24 : (jsTrim s).length = 24 := by
      have h := hhex
      simp only [isHex24, Bool.and_eq_true, beq_iff_eq] at h
      exact h.1
    simp [getQueryFromId, objectIdOfString, Query.matches, hlen24, hnd, hhex]
  · intro s hnd hnh d
    cases hl : (jsTrim s).length == 0 <;>
      simp [getQueryFromId, objectIdOfString, Query.matches, hl, hnd, hnh]

/-- C2 witness: concrete id tokens exercising each hypothesis of
`c2_id_resolution`. -/
theorem c2_id_resolution_witness :
    (isDigitString (jsTrim " 42 ") = true ∧
      Query.matches (getQueryFromId (IdToken.str " 42 "))
        (Doc.mk "00000000000000000000000a" 42 "n" "v" 0 none) =
        ((Doc.mk "00000000000000000000000a" 42 "n" "v" 0 none).userID ==
          parseIntDigits (jsTrim " 42 "))) ∧
    (isDigitString (jsTrim "507f1f77BCF86cd799439011") = false ∧
      isHex24 (jsTrim "507f1f77BCF86cd799439011") = true ∧
      Query.matches (getQueryFromId (IdToken.str "507f1f77BCF86cd799439011"))
        (Doc.mk "507f1f77bcf86cd799439011" 7 "n" "v" 0 none) =
        ((Doc.mk "507f1f77bcf86cd799439011" 7 "n" "v" 0 none).oid ==
          strToLower (jsTrim "507f1f77BCF86cd799439011"))) ∧
    (isDigitString (jsTrim "no-such-id") = false ∧ isHex24 (jsTrim "no-such-id") = false ∧
      Query.matches (getQueryFromId (IdToken.str "no-such-id"))
        (Doc.mk "507f1f77bcf86cd799439011" 7 "n" "v" 0 none) = false) ∧
    (isDigitString (jsTrim "") = false ∧ isHex24 (jsTrim "") = false ∧
      Query.matches (getQueryFromId (IdToken.str ""))
        (Doc.mk "507f1f77bcf86cd799439011" 7 "n" "v" 0 none) = false) :=
  ⟨⟨by decide, c2_id_resolution.2.2.1 " 42 " (by decide) _⟩,
   ⟨by decide, by decide,
    c2_id_resolution.2.2.2.1 "507f1f77BCF86cd799439011" (by decide) (by decide) _⟩,
   ⟨by decide, by decide,
    c2_id_resolution.2.2.2.2 "no-such-id" (by decide) (by decide) _⟩,
   ⟨by decide, by decide, c2_id_resolution.2.2.2.2 "" (by decide) (by decide) _⟩⟩

/-- C3: for every id, `updateRecord(id, name, value)` returns a null
(not-found) result without raising when no record matches the resolved id;
otherwise it replaces `name` and `value`, stamps `updatedAt` with the call's
timestamp, and returns the record's new state — whose `updatedAt` is
non-null and strictly after its `createdAt` whenever the call happens
strictly after the record's creation. -/
theorem c3_update_not_found_or_new_state (st : DB) (id : IdToken) (nm v : String)
    (now : Nat) (fl : Flags) (hcf : fl.connectFails = false) :
    ((connectState st fl.scanFails).docs.find?
        (fun d => (getQueryFromId id).matches d) = none →
      updateRecord st id nm v now fl = (.ok none, connectState st fl.scanFails)) ∧
    (∀ d0, (connectState st fl.scanFails).docs.find?
        (fun d => (getQueryFromId id).matches d) = some d0 →
      ∃ p : Pub, (updateRecord st id nm v now fl).1 = .ok (some p) ∧
        p.name = nm ∧ p.value = v ∧ p.updatedAt = some now ∧
        p.createdAt = some d0.createdAt ∧
        (d0.createdAt < now →
          ∃ c u, p.createdAt = some c ∧ p.updatedAt = some u ∧ c < u)) := by
  have hE : ensureConnection st fl.connectFails fl.scanFails =
      .ok (connectState st fl.scanFails) := by
    rw [hcf]
    exact ensureConnection_eq st fl.scanFails
  constructor
  · intro hnone
    have h1 : (updateFirst (connectState st fl.scanFails).docs
        (getQueryFromId id) nm v now).1 = none := by
      rw [updateFirst_fst, hnone]
      rfl
    unfold updateRecord
    rw [hE]
    simp only
    rcases hu : updateFirst (connectState st fl.scanFails).docs
      (getQueryFromId id) nm v now with ⟨f, ds⟩
    rw [hu] at h1
    simp only at h1
    cases f with
    | none => rfl
    | some d' => cases h1
  · intro d0 hfind
    have h1 : (updateFirst (connectState st fl.scanFails).docs
        (getQueryFromId id) nm v now).1 =
        some { d0 with name := nm, value := v, updatedAt := some now } := by
      rw [updateFirst_fst, hfind]
      rfl
    unfold updateRecord
    rw [hE]
    simp only
    rcases hu : updateFirst (connectState st fl.scanFails).docs
      (getQueryFromId id) nm v now with ⟨f, ds⟩
    rw [hu] at h1
    simp only at h1
    cases f with
    | none => cases h1
    | some d' =>
      have hd' : d' = { d0 with name := nm, value := v, updatedAt := some now } :=
        Option.some.inj h1
      subst hd'
      refine ⟨_, rfl, rfl, rfl, rfl, rfl, ?_⟩
      intro hlt
      exact ⟨d0.createdAt, now, rfl, rfl, hlt⟩

/-- C3 witness: on a connected store holding exactly `docA` (userID 1,
created at tick 5), updating record 1 to ("B","2") at tick 9 returns the new
state with `updatedAt` strictly after `createdAt`; the not-found arm is
exercised by userID 99. -/
theorem c3_update_witness :
    (updateRecord stOne (IdToken.num 99) "B" "2" 9 noFails =
      (.ok none, connectState stOne noFails.scanFails)) ∧
    (∃ p : Pub, (updateRecord stOne (IdToken.num 1) "B" "2" 9 noFails).1 = .ok (some p) ∧
      p.name = "B" ∧ p.value = "2" ∧ p.updatedAt = some 9 ∧
      p.createdAt = some docA.createdAt ∧
      (docA.createdAt < 9 → ∃ c u, p.createdAt = some c ∧ p.updatedAt = some u ∧ c < u)) :=
  ⟨(c3_update_not_found_or_new_state stOne (IdToken.num 99) "B" "2" 9 noFails rfl).1
      (by decide),
   (c3_update_not_found_or_new_state stOne (IdToken.num 1) "B" "2" 9 noFails rfl).2 docA
      (by decide)⟩

/-- C4: a backup is triggered (the `createBackup` ghost counter advances)
after every successful `addRecord` and after every `deleteRecord` that found
a record, and is never triggered by `updateRecord` (whatever its outcome) or
by a `deleteRecord` whose id matched no record. -/
theorem c4_backup_triggering (st : DB) (nm v : String) (id : IdToken) (now : Nat)
    (fl : Flags) (hcf : fl.connectFails = false) (hins : fl.insertFails = false)
    (hfresh : st.docs.any (fun d => d.oid == oidString st.oidSeed) = false) :
    ((addRecord st nm v now fl).2.backupCalls = st.backupCalls + 1) ∧
    ((updateRecord st id nm v now fl).2.backupCalls = st.backupCalls) ∧
    ((connectState st fl.scanFails).docs.find?
        (fun d => (getQueryFromId id).matches d) = none →
      (deleteRecord st id now fl).2.backupCalls = st.backupCalls) ∧
    (∀ d0, (connectState st fl.scanFails).docs.find?
        (fun d => (getQueryFromId id).matches d) = some d0 →
      (deleteRecord st id now fl).2.backupCalls = st.backupCalls + 1) := by
  have hE : ensureConnection st fl.connectFails fl.scanFails =
      .ok (connectState st fl.scanFails) := by
    rw [hcf]
    exact ensureConnection_eq st fl.scanFails
  refine ⟨(addRecord_success st nm v now fl hcf hins hfresh).2.2.2.2.1, ?_, ?_, ?_⟩
  · unfold updateRecord
    rw [hE]
    simp only
    rcases hu : updateFirst (connectState st fl.scanFails).docs
      (getQueryFromId id) nm v now with ⟨f, ds⟩
    cases f <;> simp [connectState_backupCalls]
  · intro hnone
    have h1 : (deleteFirst (connectState st fl.scanFails).docs (getQueryFromId id)).1 =
        none := by
      rw [deleteFirst_fst, hnone]
    unfold deleteRecord
    rw [hE]
    simp only
    rcases hu : deleteFirst (connectState st fl.scanFails).docs
      (getQueryFromId id) with ⟨f, ds⟩
    rw [hu] at h1
    simp only at h1
    cases f with
    | none => simp [connectState_backupCalls]
    | some d' => cases h1
  · intro d0 hfind
    have h1 : (deleteFirst (connectState st fl.scanFails).docs (getQueryFromId id)).1 =
        some d0 := by
      rw [deleteFirst_fst, hfind]
    unfold deleteRecord
    rw [hE]
    simp only
    split
    · rename_i heq
      rw [heq] at h1
      cases h1
    · rename_i d' ds heq
      rw [heq] at h1
      simp only at h1
      rw [(createBackup_of_connected _ now fl
        (by simp [connectState_connected])).2.2.2.2.2.1]
      simp [connectState_backupCalls]

/-- C4 witness: on `stOne`, adding triggers one backup, updating triggers
none, deleting a missing userID triggers none, deleting userID 1 triggers
one. -/
theorem c4_backup_triggering_witness :
    ((addRecord stOne "B" "2" 9 noFails).2.backupCalls = stOne.backupCalls + 1) ∧
    ((updateRecord stOne (IdToken.num 1) "B" "2" 9 noFails).2.backupCalls =
      stOne.backupCalls) ∧
    ((deleteRecord stOne (IdToken.num 99) 9 noFails).2.backupCalls = stOne.backupCalls) ∧
    ((deleteRecord stOne (IdToken.num 1) 9 noFails).2.backupCalls =
      stOne.backupCalls + 1) := by
  have h := c4_backup_triggering stOne "B" "2" (IdToken.num 1) 9 noFails rfl rfl (by decide)
  have h99 := c4_backup_triggering stOne "B" "2" (IdToken.num 99) 9 noFails rfl rfl
    (by decide)
  exact ⟨h.1, h.2.1, h99.2.2.1 (by decide), h.2.2.2 docA (by decide)⟩

/-- C5: a failing backup write after `addRecord` is caught inside
`createBackup` and never propagated: the call still returns the added record
(identical to the result with a succeeding backup), the counter increment is
not rolled back, and the stored collection is the same as with a succeeding
backup. -/
theorem c5_backup_failure_isolated (st : DB) (nm v : String) (now : Nat) (sf : Bool)
    (hfresh : st.docs.any (fun d => d.oid == oidString st.oidSeed) = false) :
    ((addRecord st nm v now ⟨false, sf, false, true⟩).1 =
      (addRecord st nm v now ⟨false, sf, false, false⟩).1) ∧
    (∃ p : Pub, (addRecord st nm v now ⟨false, sf, false, true⟩).1 = .ok (some p)) ∧
    ((addRecord st nm v now ⟨false, sf, false, true⟩).2.staticUserId =
      (connectState st sf).staticUserId + 1) ∧
    ((addRecord st nm v now ⟨false, sf, false, true⟩).2.docs =
      (addRecord st nm v now ⟨false, sf, false, false⟩).2.docs) := by
  have hbad := addRecord_success st nm v now ⟨false, sf, false, true⟩ rfl rfl hfresh
  have hok := addRecord_success st nm v now ⟨false, sf, false, false⟩ rfl rfl hfresh
  refine ⟨?_, ⟨_, hbad.1⟩, hbad.2.2.1, ?_⟩
  · rw [hbad.1, hok.1]
  · rw [hbad.2.2.2.1, hok.2.2.2.1]

/-- C5 witness: on `stOne` with the backup write failing, `addRecord`
returns the same record as with a succeeding backup, does not raise, and
keeps the counter increment. -/
theorem c5_backup_failure_witness :
    ((addRecord stOne "B" "2" 9 ⟨false, false, false, true⟩).1 =
      (addRecord stOne "B" "2" 9 ⟨false, false, false, false⟩).1) ∧
    (∃ p : Pub, (addRecord stOne "B" "2" 9 ⟨false, false, false, true⟩).1 =
      .ok (some p)) ∧
    ((addRecord stOne "B" "2" 9 ⟨false, false, false, true⟩).2.staticUserId =
      (connectState stOne false).staticUserId + 1) ∧
    ((addRecord stOne "B" "2" 9 ⟨false, false, false, true⟩).2.docs =
      (addRecord stOne "B" "2" 9 ⟨false, false, false, false⟩).2.docs) :=
  c5_backup_failure_isolated stOne "B" "2" 9 false (by decide)

/-- C6: on a first successful connection (the counter still holds its
module-initial value) the counter is seeded to the maximum existing userID
plus one, and stays at its initial value when the collection is empty or the
scan fails; the first `addRecord` after any (re)connection assigns exactly
the seeded counter value. -/
theorem c6_counter_seeding (st : DB) (nm v : String) (now : Nat) (sf : Bool)
    (hdisc : st.connected = false) (hpos : 1 ≤ st.staticUserId)
    (hfresh : st.docs.any (fun d => d.oid == oidString st.oidSeed) = false) :
    (st.docs ≠ [] → (connectState st false).staticUserId = maxUserID st.docs + 1) ∧
    (st.docs = [] → (connectState st false).staticUserId = st.staticUserId) ∧
    ((connectState st true).staticUserId = st.staticUserId) ∧
    (∃ p : Pub, (addRecord st nm v now ⟨false, sf, false, false⟩).1 = .ok (some p) ∧
      p.userID = some ((connectState st sf).staticUserId)) := by
  refine ⟨?_, ?_, ?_, ?_⟩
  · intro hne
    unfold connectState
    simp only [hdisc, Bool.false_eq_true, if_false]
    cases hd : st.docs with
    | nil => exact absurd hd hne
    | cons a as => simp [hd]
  · intro hnil
    unfold connectState
    simp [hdisc, hnil]
  · unfold connectState
    simp [hdisc]
  · have hs := addRecord_success st nm v now ⟨false, sf, false, false⟩ rfl rfl hfresh
    refine ⟨_, hs.1, ?_⟩
    show jsOrNullNat (connectState st sf).staticUserId = some _
    exact jsOrNullNat_pos _ (connectState_counter_pos st sf hpos)

/-- C6 witness: reconnecting to a store holding userID 1 seeds the counter
to 2, and the first add then assigns exactly 2; connecting a first time to
an empty store keeps the counter at 1 (also when the scan fails). -/
theorem c6_counter_seeding_witness :
    ((connectState stReconnect false).staticUserId = maxUserID stReconnect.docs + 1) ∧
    ((connectState initDB false).staticUserId = initDB.staticUserId) ∧
    ((connectState initDB true).staticUserId = initDB.staticUserId) ∧
    (∃ p : Pub, (addRecord stReconnect "B" "2" 9 ⟨false, false, false, false⟩).1 =
      .ok (some p) ∧ p.userID = some ((connectState stReconnect false).staticUserId)) := by
  have hr := c6_counter_seeding stReconnect "B" "2" 9 false rfl (by decide) (by decide)
  have he := c6_counter_seeding initDB "B" "2" 9 false rfl (by decide) (by decide)
  exact ⟨hr.1 (by decide), he.2.1 rfl, he.2.2.1, hr.2.2.2⟩

/-- C7 (code defect): the Activity Logger is never subscribed to any
record-lifecycle event.  Its guard tests `db.emitter`, but the db module
exports no `emitter`; moreover the event names it would listen for
(`add`/`update`/`delete`) are disjoint from the kinds the store actually
emits (`recordAdded`/`recordUpdated`/`recordDeleted`).  Concretely, after an
`addRecord` the store has emitted a `recordAdded` event and the logger is
subscribed to nothing, so no log line is written. -/
theorem c7_logger_never_subscribed :
    loggerSubscribedEvents = [] ∧
    dbEmitterDefined = false ∧
    (∀ e ∈ emittedEventKinds, e ∉ intendedLoggerEvents) ∧
    ((addRecord connectedInit "A" "1" 5 noFails).2.events.map Prod.fst = ["recordAdded"]) ∧
    (∀ e ∈ (addRecord connectedInit "A" "1" 5 noFails).2.events.map Prod.fst,
      e ∉ loggerSubscribedEvents) := by
  refine ⟨rfl, rfl, by decide, by decide, by decide⟩

/-- C8 counterexample: searching for the keyword "5" over a store holding a
record named "zzz" with userID 5 returns that record, although its name does
not contain "5" — search does not return only name-substring matches. -/
theorem c8_search_counterexample :
    searchOp "5" [cexRecord] = some [cexRecord] ∧
    specNameMatch "5" cexRecord = false := by
  refine ⟨by decide, by decide⟩

/-- C8 (amended): for every keyword (nonempty after trimming) and record
set, search returns exactly the records that match at least one of: name
contains the keyword case-insensitively, userID equals the numeric keyword,
or the storage id contains the keyword case-insensitively.  In particular it
returns all name-substring matches, but not only them. -/
theorem c8_search_characterization (input : String) (records : List Pub)
    (h : jsTrim input ≠ "") :
    ∃ l, searchOp input records = some l ∧
      ∀ r : Pub, r ∈ l ↔ r ∈ records ∧
        (specNameMatch (jsTrim input) r = true ∨ specUserIdMatch (jsTrim input) r = true ∨
          specIdMatch (jsTrim input) r = true) := by
  have hne : (jsTrim input == "") = false := by
    rw [beq_eq_false_iff_ne]
    exact h
  refine ⟨records.filter (fun r => searchMatches (jsTrim input) r), by simp [searchOp, hne], ?_⟩
  intro r
  rw [List.mem_filter]
  constructor
  · rintro ⟨hmem, hp⟩
    refine ⟨hmem, ?_⟩
    simp only [searchMatches, specNameMatch, specUserIdMatch, specIdMatch,
      Bool.or_eq_true] at hp ⊢
    tauto
  · rintro ⟨hmem, hp⟩
    refine ⟨hmem, ?_⟩
    simp only [searchMatches, specNameMatch, specUserIdMatch, specIdMatch,
      Bool.or_eq_true] at hp ⊢
    tauto

/-- C8 witness: searching "z" over the one-record store returns exactly the
records matching the three-way criterion. -/
theorem c8_search_witness :
    ∃ l, searchOp "z" [cexRecord] = some l ∧
      (cexRecord ∈ l ↔ cexRecord ∈ [cexRecord] ∧
        (specNameMatch (jsTrim "z") cexRecord = true ∨
          specUserIdMatch (jsTrim "z") cexRecord = true ∨
          specIdMatch (jsTrim "z") cexRecord = true)) := by
  obtain ⟨l, hl, hiff⟩ := c8_search_characterization "z" [cexRecord] (by decide)
  exact ⟨l, hl, hiff cexRecord⟩

/-- C9 counterexample: `toPublic` raises on a document whose `updatedAt` is
a truthy string that is not a parseable timestamp
(`new Date("not-a-date").toISOString()` throws `RangeError`), so it is not
total on every input document. -/
theorem c9_toPublic_counterexample :
    toPublicRaw (some badDoc) = .error "RangeError: Invalid time value" := by
  rfl

/-- C9 (amended): `toPublic` returns `null` on a null/absent document, and
on every document whose `updatedAt` is absent, empty, or a well-formed
timestamp string (in particular every document this store writes) it never
raises, degrading a missing internal id through string coercion to `null`,
and exposes: the id string (or null), `userID` (or null), `name`, `value`,
the date-only first ten characters of `createdAt` (or null), the raw
`createdAt`/`updatedAt` values, and a seconds-precision rendering of
`updatedAt` (or null). -/
theorem c9_toPublic_total_on_wellformed (d : RawDoc)
    (h : d.updatedAt = none ∨ d.updatedAt = some "" ∨
      ∃ s, d.updatedAt = some s ∧ isCanonIso s = true) :
    toPublicRaw none = .ok none ∧
    ∃ p : RawPub, toPublicRaw (some d) = .ok (some p) ∧
      p.id = (if jsTruthyStr d.mongoId then some (d.mongoId.getD "")
        else if jsTruthyStr d.jsId then some (d.jsId.getD "") else none) ∧
      p.userID = jsOrNullNatOpt d.userID ∧
      p.name = d.name ∧ p.value = d.value ∧
      p.created = (if jsTruthyStr d.createdAt then some ((d.createdAt.getD "").take 10)
        else none) ∧
      p.createdAt = (if jsTruthyStr d.createdAt then d.createdAt else none) ∧
      p.updatedAt = (if jsTruthyStr d.updatedAt then d.updatedAt else none) ∧
      p.updated = ((if jsTruthyStr d.updatedAt then d.updatedAt else none).map
        secondsPrecision) := by
  refine ⟨rfl, ?_⟩
  rcases h with h | h | ⟨s, hs, hc⟩
  · simp only [toPublicRaw, h, jsTruthyStr]
    exact ⟨_, rfl, rfl, rfl, rfl, rfl, rfl, rfl, rfl, rfl⟩
  · simp only [toPublicRaw, h, jsTruthyStr]
    exact ⟨_, rfl, rfl, rfl, rfl, rfl, rfl, rfl, rfl, rfl⟩
  · have hne : (s == "") = false := by
      rw [beq_eq_false_iff_ne]
      intro e
      subst e
      exact absurd hc (by decide)
    simp only [toPublicRaw, hs, jsTruthyStr, hne, Bool.not_false, if_true, hc, Option.map_some]
    exact ⟨_, rfl, rfl, rfl, rfl, rfl, rfl, rfl, rfl, rfl⟩

/-- C9 witness: the well-formed document `goodRawDoc` normalizes without
raising, with every exposed field as described. -/
theorem c9_toPublic_witness :
    toPublicRaw none = .ok none ∧
    ∃ p : RawPub, toPublicRaw (some goodRawDoc) = .ok (some p) ∧
      p.id = (if jsTruthyStr goodRawDoc.mongoId then some (goodRawDoc.mongoId.getD "")
        else if jsTruthyStr goodRawDoc.jsId then some (goodRawDoc.jsId.getD "") else none) ∧
      p.userID = jsOrNullNatOpt goodRawDoc.userID ∧
      p.name = goodRawDoc.name ∧ p.value = goodRawDoc.value ∧
      p.created = (if jsTruthyStr goodRawDoc.createdAt then
        some ((goodRawDoc.createdAt.getD "").take 10) else none) ∧
      p.createdAt = (if jsTruthyStr goodRawDoc.createdAt then goodRawDoc.createdAt
        else none) ∧
      p.updatedAt = (if jsTruthyStr goodRawDoc.updatedAt then goodRawDoc.updatedAt
        else none) ∧
      p.updated = ((if jsTruthyStr goodRawDoc.updatedAt then goodRawDoc.updatedAt
        else none).map secondsPrecision) :=
  c9_toPublic_total_on_wellformed goodRawDoc (Or.inr (Or.inr ⟨_, rfl, by decide⟩))

end NodeVault
